import Mathlib

/-!
Verification development for the task-orchestration core of the bot
repository: the output-protocol parser, the tiered byte-stream decoding,
the event bus, and the process manager (queue, concurrency gate, executor,
retry controller, status registry) from `core/process_manager.py`,
`core/event_bus.py` and `core/db/process_log_db.py`.

Strings are embedded as `List Char` (`Str` below); Python byte strings as
`List Nat` with each element `< 256`; machine text decoding is modelled by
explicit UTF-8 / cp1251 decoders over those byte lists.  Fallible Python
code (a `decode` that can raise `UnicodeDecodeError`) is embedded as an
`Option`-returning function, and a `try/except` block as a `match` on that
option.  Task ids (md5 hex digests of script, args and the submission
timestamp, unique per submission call) are abstracted as naturals minted
from a fresh counter.
-/

namespace BotCore

/-- Python strings, embedded as lists of characters. -/
abbrev Str := List Char

/-- Configured maximum of simultaneously executing tasks
(`MAX_CONCURRENT_TASKS` in `core/process_manager.py`). -/
def MAX_CONCURRENT_TASKS : Nat := 2

/-- Configured per-task timeout in seconds (`TASK_TIMEOUT_SEC`). -/
def TASK_TIMEOUT_SEC : Nat := 300

/-- Configured default retry budget (`TASK_MAX_RETRIES`). -/
def TASK_MAX_RETRIES : Nat := 3

/-- Configured retry back-off delay in seconds (`TASK_RETRY_DELAY_SEC`). -/
def TASK_RETRY_DELAY_SEC : Nat := 2

/-! ## Python string primitives used by `_parse_script_output` -/

/-- Characters stripped by Python `str.strip()` (ASCII part: space, tab,
newline, carriage return, vertical tab, form feed). -/
def pyIsSpace (c : Char) : Bool :=
  c = ' ' || c = '\t' || c = '\n' || c = '\r' || c = Char.ofNat 11 || c = Char.ofNat 12

/-- Python `str.strip()`: drop leading and trailing whitespace. -/
def pyStrip (s : Str) : Str :=
  ((s.dropWhile pyIsSpace).reverse.dropWhile pyIsSpace).reverse

/-- Line-break characters recognised by Python `str.splitlines()`. -/
def pyIsLineBreak (c : Char) : Bool :=
  c = '\n' || c = '\r' || c = Char.ofNat 11 || c = Char.ofNat 12 ||
  c = Char.ofNat 28 || c = Char.ofNat 29 || c = Char.ofNat 30 ||
  c = Char.ofNat 133 || c = Char.ofNat 8232 || c = Char.ofNat 8233

/-- Python `str.splitlines()`: split at line breaks, treating `"\r\n"` as a
single break and producing no trailing empty line. -/
def pySplitlines : Str → List Str
  | [] => []
  | '\r' :: '\n' :: rest => [] :: pySplitlines rest
  | c :: rest =>
    if pyIsLineBreak c then
      [] :: pySplitlines rest
    else
      match pySplitlines rest with
      | [] => [[c]]
      | l :: ls => (c :: l) :: ls

/-- Python `line.split(":", 1)`: split at the first colon only, returning
the parts before and after it; `none` when the line has no colon. -/
def splitFirstColon : Str → Option (Str × Str)
  | [] => none
  | c :: rest =>
    if c = ':' then some ([], rest)
    else (splitFirstColon rest).map (fun p => (c :: p.1, p.2))

/-- Python dict insertion `d[k] = v`: overwrite in place when the key is
present, otherwise append the new binding. -/
def dictInsert (d : List (Str × Str)) (k v : Str) : List (Str × Str) :=
  match d with
  | [] => [(k, v)]
  | (k0, v0) :: rest =>
    if k0 = k then (k0, v) :: rest else (k0, v0) :: dictInsert rest k v

/-- Candidate test of `_parse_script_output`: the line contains a colon and
starts with neither `[` nor a space. -/
def isCandidateLine (line : Str) : Bool :=
  line.contains ':' &&
  !(decide (line.head? = some '[')) && !(decide (line.head? = some ' '))

/-- The output-protocol parser `_parse_script_output` of
`core/process_manager.py`: scan the lines of the captured stdout; for every
candidate line split at the first colon, strip both sides, and store the
pair with dict-overwrite semantics; skip every other line. -/
def parse_script_output (output : Str) : List (Str × Str) :=
  (pySplitlines output).foldl
    (fun parsed line =>
      if isCandidateLine line then
        match splitFirstColon line with
        | some (k, v) => dictInsert parsed (pyStrip k) (pyStrip v)
        | none => parsed
      else parsed)
    []

/-- Lookup in the association lists produced by `dictInsert`. -/
def dictLookup (d : List (Str × Str)) (k : Str) : Option Str :=
  match d with
  | [] => none
  | (k0, v0) :: rest => if k0 = k then some v0 else dictLookup rest k

/-! ## Spec-side formulation of the parser (for the refinement claim)

The spec describes the parser as: scan the lines in order; a line
contributes a pair iff it contains a colon and starts with neither `[` nor
a space; split such a line at its first colon only and trim both sides; a
later occurrence of the same key overwrites the earlier value; every other
line is silently skipped.  `specParseLookup` renders that wording directly
as a key-lookup function: the value of `k` is the one contributed by the
last contributing line whose (trimmed) key is `k`. -/

/-- Pairs contributed by the contributing lines, in line order
(spec wording, to be compared with `parse_script_output`). -/
def specContributedPairs (output : Str) : List (Str × Str) :=
  (pySplitlines output).filterMap
    (fun line =>
      if isCandidateLine line then
        (splitFirstColon line).map (fun p => (pyStrip p.1, pyStrip p.2))
      else none)

/-- Last-wins lookup over a list of contributed pairs: a pair contributed
by a later line overwrites one contributed by an earlier line. -/
def specLookupPairs : List (Str × Str) → Str → Option Str
  | [], _ => none
  | p :: rest, k =>
    match specLookupPairs rest k with
    | some v => some v
    | none => if p.1 = k then some p.2 else none

/-- Spec wording of the parsed mapping, as a lookup: the last contributing
line with key `k` wins; `none` when no contributing line has key `k`. -/
def specParseLookup (output : Str) (k : Str) : Option Str :=
  specLookupPairs (specContributedPairs output) k

/-! ## Tiered byte-stream decoding (`_execute_task`, lines 155-171)

The captured stdout and stderr byte streams are decoded with
`bytes.decode('utf-8')`, falling back on `UnicodeDecodeError` to
`bytes.decode('cp1251')`, falling back again to
`bytes.decode('utf-8', errors='replace')`.  The two fallible decodes are
embedded as `Option`-returning functions (а `none` is a raised
`UnicodeDecodeError`), the lossy decode as a total function, and the
`try/except` nesting as matches on the options. -/

/-- Continuation-byte test of the UTF-8 decoder: `0x80 ≤ b < 0xC0`. -/
def utf8IsCont (b : Nat) : Bool := 0x80 ≤ b && b < 0xC0

/-- Admissible second byte of a UTF-8 three-byte sequence with lead `b`:
lead `0xE0` forbids overlong encodings, lead `0xED` forbids surrogates. -/
def utf8Cont3Ok (b b1 : Nat) : Bool :=
  if b = 0xE0 then 0xA0 ≤ b1 && b1 < 0xC0
  else if b = 0xED then 0x80 ≤ b1 && b1 < 0xA0
  else utf8IsCont b1

/-- Admissible second byte of a UTF-8 four-byte sequence with lead `b`:
lead `0xF0` forbids overlong encodings, lead `0xF4` caps at `U+10FFFF`. -/
def utf8Cont4Ok (b b1 : Nat) : Bool :=
  if b = 0xF0 then 0x90 ≤ b1 && b1 < 0xC0
  else if b = 0xF4 then 0x80 ≤ b1 && b1 < 0x90
  else utf8IsCont b1

/-- Strict UTF-8 decoding of a byte list into code points
(`bytes.decode('utf-8')`): `none` models a raised `UnicodeDecodeError`. -/
def utf8Decode : List Nat → Option (List Nat)
  | [] => some []
  | b :: rest =>
    if b < 0x80 then (utf8Decode rest).map (b :: ·)
    else if b < 0xC2 then none
    else if b < 0xE0 then
      match rest with
      | b1 :: r =>
        if utf8IsCont b1 then
          (utf8Decode r).map ((0x40 * (b - 0xC0) + (b1 - 0x80)) :: ·)
        else none
      | [] => none
    else if b < 0xF0 then
      match rest with
      | b1 :: b2 :: r =>
        if utf8Cont3Ok b b1 && utf8IsCont b2 then
          (utf8Decode r).map
            ((0x1000 * (b - 0xE0) + 0x40 * (b1 - 0x80) + (b2 - 0x80)) :: ·)
        else none
      | _ => none
    else if b < 0xF5 then
      match rest with
      | b1 :: b2 :: b3 :: r =>
        if utf8Cont4Ok b b1 && utf8IsCont b2 && utf8IsCont b3 then
          (utf8Decode r).map
            ((0x40000 * (b - 0xF0) + 0x1000 * (b1 - 0x80) +
              0x40 * (b2 - 0x80) + (b3 - 0x80)) :: ·)
        else none
      | _ => none
    else none

/-- Lossy UTF-8 decoding (`bytes.decode('utf-8', errors='replace')`):
total; an undecodable byte becomes the replacement character `U+FFFD` and
decoding resynchronises at the next byte. -/
def utf8DecodeReplace : List Nat → List Nat
  | [] => []
  | b :: rest =>
    if b < 0x80 then b :: utf8DecodeReplace rest
    else if b < 0xC2 then 0xFFFD :: utf8DecodeReplace rest
    else if b < 0xE0 then
      match rest with
      | b1 :: r =>
        if utf8IsCont b1 then
          (0x40 * (b - 0xC0) + (b1 - 0x80)) :: utf8DecodeReplace r
        else 0xFFFD :: utf8DecodeReplace (b1 :: r)
      | [] => [0xFFFD]
    else if b < 0xF0 then
      match rest with
      | b1 :: b2 :: r =>
        if utf8Cont3Ok b b1 && utf8IsCont b2 then
          (0x1000 * (b - 0xE0) + 0x40 * (b1 - 0x80) + (b2 - 0x80)) ::
            utf8DecodeReplace r
        else 0xFFFD :: utf8DecodeReplace (b1 :: b2 :: r)
      | [b1] => 0xFFFD :: utf8DecodeReplace [b1]
      | [] => [0xFFFD]
    else if b < 0xF5 then
      match rest with
      | b1 :: b2 :: b3 :: r =>
        if utf8Cont4Ok b b1 && utf8IsCont b2 && utf8IsCont b3 then
          (0x40000 * (b - 0xF0) + 0x1000 * (b1 - 0x80) +
            0x40 * (b2 - 0x80) + (b3 - 0x80)) :: utf8DecodeReplace r
        else 0xFFFD :: utf8DecodeReplace (b1 :: b2 :: b3 :: r)
      | [b1, b2] => 0xFFFD :: utf8DecodeReplace [b1, b2]
      | [b1] => 0xFFFD :: utf8DecodeReplace [b1]
      | [] => [0xFFFD]
    else 0xFFFD :: utf8DecodeReplace rest
termination_by l => l.length
decreasing_by all_goals (simp [List.length_cons]; try omega)

/-- Code points of the cp1251 upper half, indexed by `byte - 0x80`; the
single undefined position (byte `0x98`) holds a dummy `0` and is excluded
by `cp1251Byte` before the table is consulted. -/
def cp1251Table : List Nat :=
  [1026, 1027, 8218, 1107, 8222, 8230, 8224, 8225, 8364, 8240, 1033, 8249,
   1034, 1036, 1035, 1039, 1106, 8216, 8217, 8220, 8221, 8226, 8211, 8212,
   0, 8482, 1113, 8250, 1114, 1116, 1115, 1119, 160, 1038, 1118, 1032,
   164, 1168, 166, 167, 1025, 169, 1028, 171, 172, 173, 174, 1031, 176,
   177, 1030, 1110, 1169, 181, 182, 183, 1105, 8470, 1108, 187, 1112,
   1029, 1109, 1111, 1040, 1041, 1042, 1043, 1044, 1045, 1046, 1047, 1048,
   1049, 1050, 1051, 1052, 1053, 1054, 1055, 1056, 1057, 1058, 1059, 1060,
   1061, 1062, 1063, 1064, 1065, 1066, 1067, 1068, 1069, 1070, 1071, 1072,
   1073, 1074, 1075, 1076, 1077, 1078, 1079, 1080, 1081, 1082, 1083, 1084,
   1085, 1086, 1087, 1088, 1089, 1090, 1091, 1092, 1093, 1094, 1095, 1096,
   1097, 1098, 1099, 1100, 1101, 1102, 1103]

/-- Decoding of a single byte under cp1251: ASCII below `0x80`, the table
above, and `none` at the single undefined byte `0x98`. -/
def cp1251Byte (b : Nat) : Option Nat :=
  if b < 0x80 then some b
  else if b = 0x98 then none
  else cp1251Table.get? (b - 0x80)

/-- Legacy 8-bit decoding (`bytes.decode('cp1251')`): `none` models a
raised `UnicodeDecodeError` (only the undefined byte `0x98` raises). -/
def cp1251Decode : List Nat → Option (List Nat)
  | [] => some []
  | b :: rest =>
    match cp1251Byte b with
    | some cp => (cp1251Decode rest).map (cp :: ·)
    | none => none

/-- The tiered decoding of one captured stream in `_execute_task`: try
UTF-8; on `UnicodeDecodeError` try cp1251; on a second error decode
UTF-8 with lossy replacement.  The result is `Except`-valued so that an
uncaught decoding error would surface as `Except.error`. -/
def decodeStreamE (bs : List Nat) : Except Unit (List Nat) :=
  match utf8Decode bs with
  | some s => Except.ok s
  | none =>
    match cp1251Decode bs with
    | some s => Except.ok s
    | none => Except.ok (utf8DecodeReplace bs)

/-- Decoded text of one captured stream, as characters. -/
def decodeStream (bs : List Nat) : Str :=
  (match decodeStreamE bs with
   | Except.ok cps => cps
   | Except.error _ => []).map Char.ofNat

/-! ## Event bus (`core/event_bus.py`)

Handlers are embedded by their observable behaviour at one invocation: an
identity (so that invocation order can be stated) and whether the call
raises.  A raised handler exception is an `Except.error`; the per-handler
`try/except` in `emit_event` is a `match` on that value.  The two
registries are dicts `event_type → list of handlers`; a registry slot
holds `Option Handler` because the synchronous `subscribe` performs no
`None` check (only `emit_event` does, and `subscribe_async` refuses
`None` at subscription time). -/

/-- A subscriber callback: an identity plus whether its invocation
raises. -/
structure Handler where
  hid : Nat
  fails : Bool
deriving DecidableEq, Repr

/-- A handler registry: `event_type → ordered list of handlers`. -/
abbrev HandlerReg := List (String × List (Option Handler))

/-- Handler list registered for an event type; the empty list when the
type has no entry (`if event_type in _handlers` in the source). -/
def regHandlers (reg : HandlerReg) (ty : String) : List (Option Handler) :=
  match reg with
  | [] => []
  | (t, l) :: rest => if t = ty then l else regHandlers rest ty

/-- Append a handler to a type's list, creating the entry when absent
(`if event_type not in _handlers: _handlers[event_type] = []` followed by
`append`). -/
def regAppend (reg : HandlerReg) (ty : String) (h : Option Handler) :
    HandlerReg :=
  match reg with
  | [] => [(ty, [h])]
  | (t, l) :: rest =>
    if t = ty then (t, l ++ [h]) :: rest else (t, l) :: regAppend rest ty h

/-- The bus state: the synchronous and asynchronous registries. -/
structure Bus where
  syncH : HandlerReg
  asyncH : HandlerReg
deriving DecidableEq, Repr

/-- `subscribe`: append to the synchronous registry (no `None` check in
the source). -/
def subscribe (bus : Bus) (ty : String) (h : Option Handler) : Bus :=
  { bus with syncH := regAppend bus.syncH ty h }

/-- `subscribe_async`: a `None` handler is a warning and a no-op,
otherwise append to the asynchronous registry. -/
def subscribe_async (bus : Bus) (ty : String) (h : Option Handler) : Bus :=
  match h with
  | none => bus
  | some _ => { bus with asyncH := regAppend bus.asyncH ty h }

/-- One handler invocation: raises exactly when the handler fails. -/
def invokeHandler (h : Handler) : Except Unit Unit :=
  if h.fails then Except.error () else Except.ok ()

/-- Observable outcome of one `emit_event` call: the handler ids invoked
in order, and the ids whose exception was caught and logged. -/
structure DispatchLog where
  invoked : List Nat
  logged : List Nat
deriving DecidableEq, Repr

/-- The dispatch loop shared by both halves of `emit_event`: skip `None`
entries, invoke each handler, and catch and log an exception individually,
continuing with the next handler. -/
def dispatchHandlers : List (Option Handler) → DispatchLog →
    Except Unit DispatchLog
  | [], acc => Except.ok acc
  | none :: hs, acc => dispatchHandlers hs acc
  | some h :: hs, acc =>
    match invokeHandler h with
    | Except.ok _ =>
      dispatchHandlers hs { acc with invoked := acc.invoked ++ [h.hid] }
    | Except.error _ =>
      dispatchHandlers hs
        { invoked := acc.invoked ++ [h.hid], logged := acc.logged ++ [h.hid] }

/-- `emit_event`: run every synchronous handler of the type (off the
scheduling thread in the source), then every asynchronous handler in
subscription order, awaiting each in turn; each invocation is individually
wrapped.  An uncaught handler exception would surface as
`Except.error`. -/
def emit_event_bus (bus : Bus) (ty : String) : Except Unit DispatchLog :=
  match dispatchHandlers (regHandlers bus.syncH ty) ⟨[], []⟩ with
  | Except.error e => Except.error e
  | Except.ok acc => dispatchHandlers (regHandlers bus.asyncH ty) acc

/-- Handlers actually present in a registry slot (the non-`None`
entries). -/
def someHandlers (l : List (Option Handler)) : List Handler :=
  l.filterMap id

/-! ## Process manager (`core/process_manager.py`)

Module state is gathered in `PMState`: the FIFO queue `_TASK_QUEUE`, the
in-memory maps `_TASK_STATUS` and `_TASK_RETRIES`, the durable record
store of `core/db/process_log_db.py`, the list of events published through
`emit_event` (in emission order), the logged empty-output warnings, the
admission semaphore's available permits, and the in-flight execution
coroutines with their control points.  Two ghost fields (`execLog`, the
attempts started, and `sleeps`, the retry back-off sleeps performed)
record observations and influence nothing.  Task ids are minted from the
`nextId` counter, abstracting the timestamp-salted md5 digests that are
unique per submission call. -/

/-- In-memory task status (`_TASK_STATUS` values; the durable store uses
`running | finished | failed` of the same type). -/
inductive TStatus
  | pending
  | running
  | finished
  | failed
deriving DecidableEq, Repr

/-- A queued task descriptor (the dict put on `_TASK_QUEUE`). -/
structure TaskItem where
  task_id : Nat
  script_path : Str
  args : List Str
  retries_left : Nat
deriving DecidableEq, Repr

/-- Generic dict update over `Nat` keys: overwrite in place, else
append. -/
def natDictSet {α : Type} : List (Nat × α) → Nat → α → List (Nat × α)
  | [], k, v => [(k, v)]
  | (k0, v0) :: rest, k, v =>
    if k0 = k then (k0, v) :: rest else (k0, v0) :: natDictSet rest k v

/-- Generic dict lookup over `Nat` keys. -/
def natDictGet {α : Type} : List (Nat × α) → Nat → Option α
  | [], _ => none
  | (k0, v0) :: rest, k => if k0 = k then some v0 else natDictGet rest k

/-- One durable `task_log` row (`core/db/process_log_db.py`), minus the
wall-clock columns: script path, serialized arguments, status, error
message. -/
structure DbRec where
  script_path : Str
  arguments : List Str
  status : TStatus
  error_message : Option Str
deriving DecidableEq, Repr

/-- The durable store: rows keyed by `task_id` (the primary key). -/
abbrev DbStore := List (Nat × DbRec)

/-- `log_task_start`: INSERT a row with status `running`; a duplicate
primary key is an sqlite error that the source catches and prints, leaving
the table unchanged. -/
def log_task_start (db : DbStore) (task_id : Nat) (script : Str)
    (args : List Str) : DbStore :=
  match natDictGet db task_id with
  | some _ => db
  | none => db ++ [(task_id, ⟨script, args, TStatus.running, none⟩)]

/-- `log_task_finish`: UPDATE the row's status and error message in place
(`WHERE task_id = ?`); no row, no change. -/
def log_task_finish : DbStore → Nat → TStatus → Option Str → DbStore
  | [], _, _, _ => []
  | (k0, r0) :: rest, k, st, err =>
    if k0 = k then
      (k0, { r0 with status := st, error_message := err }) :: rest
    else (k0, r0) :: log_task_finish rest k st err

/-- A value inside an event payload: a string (parsed child output or a
core-built message), the executor's own task id, or Python `None`. -/
inductive PVal
  | s (v : Str)
  | tid (t : Nat)
  | noneV
deriving DecidableEq, Repr

/-- An event payload: a dict from string keys to payload values. -/
abbrev Payload := List (Str × PVal)

/-- Payload dict update: overwrite in place, else append. -/
def payloadInsert : Payload → Str → PVal → Payload
  | [], k, v => [(k, v)]
  | (k0, v0) :: rest, k, v =>
    if k0 = k then (k0, v) :: rest else (k0, v0) :: payloadInsert rest k v

/-- Payload dict lookup. -/
def payloadLookup : Payload → Str → Option PVal
  | [], _ => none
  | (k0, v0) :: rest, k => if k0 = k then some v0 else payloadLookup rest k

/-- Payload view of the parsed `KEY:VALUE` pairs. -/
def toPayload (parsed : List (Str × Str)) : Payload :=
  parsed.map (fun p => (p.1, PVal.s p.2))

/-- Best-effort `user_id` payload value: `args[2]` when present, Python
`None` otherwise. -/
def optUser : Option Str → PVal
  | some u => PVal.s u
  | none => PVal.noneV

/-- The `task_id` payload key. -/
def kTaskId : Str := "task_id".toList

/-- The `user_id` payload key. -/
def kUserId : Str := "user_id".toList

/-- The `EVENT_TYPE` payload key. -/
def kEventType : Str := "EVENT_TYPE".toList

/-- The `RESULT_TYPE` payload key. -/
def kResultType : Str := "RESULT_TYPE".toList

/-- The `ERROR_MESSAGE` payload key. -/
def kErrorMessage : Str := "ERROR_MESSAGE".toList

/-- The `task_result` event type. -/
def tyTaskResult : Str := "task_result".toList

/-- The `task_error` event type. -/
def tyTaskError : Str := "task_error".toList

/-- Decimal rendering of a natural, for the interpolated error texts. -/
def natStr (n : Nat) : Str := Nat.toDigits 10 n

/-- Error text of the timeout branch of `_execute_task`. -/
def timeoutErrorMsg : Str :=
  "❌ Таймаут выполнения (>".toList ++ natStr TASK_TIMEOUT_SEC ++
    " сек)".toList

/-- Error text of the spawn-failure branch of `_execute_task`. -/
def spawnErrorMsg (e : Str) : Str :=
  "❌ Ошибка запуска subprocess: ".toList ++ e

/-- Error text of the non-zero-exit branch of `_execute_task`
(`'N/A'` when the decoded stderr is empty, which is falsy in Python). -/
def exitErrorMsg (code : Nat) (stderr_str : Str) : Str :=
  "Процесс завершился с кодом ".toList ++ natStr code ++
    ". STDERR: ".toList ++
    (if stderr_str = [] then "N/A".toList else stderr_str)

/-- Control point of one in-flight execution coroutine
(`_execute_task_with_semaphore`): waiting at the semaphore, executing the
child, or sleeping the retry back-off inside `_handle_task_failure`
(still holding the semaphore). -/
inductive CoPoint
  | atGate
  | executing
  | retrySleep (error_msg : Str)
deriving DecidableEq, Repr

/-- One in-flight execution coroutine. -/
structure Co where
  item : TaskItem
  point : CoPoint
deriving DecidableEq, Repr

/-- The whole orchestrator state (module globals of
`core/process_manager.py`, the durable store, plus the two ghost
observation fields `execLog` and `sleeps`). -/
structure PMState where
  queue : List TaskItem
  status : List (Nat × TStatus)
  retries : List (Nat × Nat)
  db : DbStore
  events : List (Str × Payload)
  warnings : List Nat
  execLog : List TaskItem
  sleeps : List Nat
  semAvail : Nat
  cos : List Co
  nextId : Nat
deriving DecidableEq, Repr

/-- `enqueue_script`: mint a fresh task id, set status `pending`, record
the retry budget, write the start row to the durable log, append the
descriptor to the FIFO queue, and return the id.  Submission never blocks
on execution or on the gate. -/
def enqueue_script (s : PMState) (script : Str) (args : List Str)
    (retries_left : Nat) : PMState × Nat :=
  let task_id := s.nextId
  ({ s with
      status := natDictSet s.status task_id TStatus.pending
      retries := natDictSet s.retries task_id retries_left
      db := log_task_start s.db task_id script args
      queue := s.queue ++ [⟨task_id, script, args, retries_left⟩]
      nextId := s.nextId + 1 },
   task_id)

/-- `get_active_task_count`: the number of task ids whose in-memory
status is `running`. -/
def get_active_task_count (s : PMState) : Nat :=
  (s.status.filter (fun p => decide (p.2 = TStatus.running))).length

/-- Synchronous head of `_execute_task`: set the task's in-memory status
to `running` (and record the attempt in the ghost log). -/
def startExec (s : PMState) (item : TaskItem) : PMState :=
  { s with
      status := natDictSet s.status item.task_id TStatus.running
      execLog := s.execLog ++ [item] }

/-- The `task_error` payload built by `_handle_task_failure` when
retries are exhausted. -/
def taskErrorPayload (task_id : Nat) (error_msg : Str)
    (user_id : Option Str) : Payload :=
  [(kTaskId, PVal.tid task_id),
   (kEventType, PVal.s tyTaskError),
   (kResultType, PVal.s "error".toList),
   (kErrorMessage, PVal.s ("❌ Ошибка выполнения: ".toList ++ error_msg)),
   (kUserId, optUser user_id)]

/-- First effect of `_handle_task_failure`: persist the failure
(`status=failed`, error message) to the durable log. -/
def logFailed (s : PMState) (task_id : Nat) (error_msg : Str) : PMState :=
  { s with db := log_task_finish s.db task_id TStatus.failed (some error_msg) }

/-- Terminal branch of `_handle_task_failure` (`retries_left == 0`):
emit the `task_error` event and set the in-memory status to `failed`. -/
def failureTerminal (s : PMState) (task_id : Nat) (args : List Str)
    (error_msg : Str) : PMState :=
  { s with
      events := s.events ++
        [(tyTaskError, taskErrorPayload task_id error_msg (args.get? 2))]
      status := natDictSet s.status task_id TStatus.failed }

/-- Retry branch of `_handle_task_failure` (`retries_left > 0`): sleep
the fixed back-off delay, then `enqueue_script` again with
`retries_left - 1` (minting a fresh task id). -/
def failureRetry (s : PMState) (script : Str) (args : List Str)
    (retries_left : Nat) : PMState :=
  (enqueue_script { s with sleeps := s.sleeps ++ [TASK_RETRY_DELAY_SEC] }
    script args (retries_left - 1)).1

/-- `_handle_task_failure`: persist the failure, then either back off and
re-enqueue (`retries_left > 0`) or emit the terminal `task_error` and
mark the id `failed`. -/
def handle_task_failure (s : PMState) (task_id : Nat) (script_path : Str)
    (args : List Str) (error_msg : Str) (retries_left : Nat) : PMState :=
  let s1 := logFailed s task_id error_msg
  if 0 < retries_left then failureRetry s1 script_path args retries_left
  else failureTerminal s1 task_id args error_msg

/-- Exit-code-0 tail of `_execute_task`: parse the decoded stdout; a
non-empty result is completed with the core's own `task_id` and
best-effort `user_id` (overwriting identically named parsed keys) and
published as one `task_result` event; an empty result only logs a
warning; in both cases the durable row is updated to `finished` and the
in-memory status set to `finished`. -/
def execute_success (s : PMState) (task_id : Nat) (args : List Str)
    (stdout_str : Str) : PMState :=
  let parsed := parse_script_output stdout_str
  let s1 :=
    if parsed.isEmpty then { s with warnings := s.warnings ++ [task_id] }
    else
      let payload :=
        payloadInsert
          (payloadInsert (toPayload parsed) kTaskId (PVal.tid task_id))
          kUserId (optUser (args.get? 2))
      { s with events := s.events ++ [(tyTaskResult, payload)] }
  { s1 with
      db := log_task_finish s1.db task_id TStatus.finished none
      status := natDictSet s1.status task_id TStatus.finished }

/-- Observable behaviour of one spawned child: whether and when the spawn
raises, how long the process then runs, its exit code and its captured
output byte streams. -/
structure ChildBeh where
  spawnFails : Bool
  spawnErr : Str
  spawnTime : Nat
  runTime : Nat
  exitCode : Nat
  stdoutBytes : List Nat
  stderrBytes : List Nat
deriving DecidableEq, Repr

/-- `_execute_task`, sequential view: mark `running`, then spawn under
`asyncio.wait_for(asyncio.create_subprocess_exec(...), TASK_TIMEOUT_SEC)`
— the deadline covers only the spawn — then await `proc.communicate()`
(no deadline), decode both streams, and branch on the exit code.  Returns
the new state and the elapsed wall-clock seconds from the attempt's start
until `_execute_task` reaches its outcome branch. -/
def execute_task (s : PMState) (item : TaskItem) (beh : ChildBeh) :
    PMState × Nat :=
  let s0 := startExec s item
  if TASK_TIMEOUT_SEC < beh.spawnTime then
    (handle_task_failure s0 item.task_id item.script_path item.args
      timeoutErrorMsg item.retries_left,
     TASK_TIMEOUT_SEC)
  else if beh.spawnFails then
    (handle_task_failure s0 item.task_id item.script_path item.args
      (spawnErrorMsg beh.spawnErr) item.retries_left,
     beh.spawnTime)
  else
    let stdout_str := decodeStream beh.stdoutBytes
    let stderr_str := decodeStream beh.stderrBytes
    if beh.exitCode = 0 then
      (execute_success s0 item.task_id item.args stdout_str,
       beh.spawnTime + beh.runTime)
    else
      (handle_task_failure s0 item.task_id item.script_path item.args
        (exitErrorMsg beh.exitCode stderr_str) item.retries_left,
       beh.spawnTime + beh.runTime)

/-- Sequential drain of the queue (the consumer loop running one task at
a time, every child showing the same behaviour), with fuel. -/
def runQueueSeq : Nat → PMState → ChildBeh → PMState
  | 0, s, _ => s
  | fuel + 1, s, beh =>
    match s.queue with
    | [] => s
    | item :: rest =>
      runQueueSeq fuel (execute_task { s with queue := rest } item beh).1 beh

/-! ### Small-step concurrent semantics

Each label is one atomic segment between suspension points of the
cooperative scheduler: a submission, the queue-loop dequeue that spawns a
detached execution, a semaphore acquisition (which runs the synchronous
head of `_execute_task`), the completion of a spawned child with a given
behaviour (which runs `_execute_task` from its first outcome up to either
the terminal effects or the retry back-off sleep), and the wake-up from
that sleep (which re-enqueues and releases the semaphore). -/

/-- Transition labels of the orchestrator. -/
inductive PMLabel
  | submit (script : Str) (args : List Str) (retries : Nat)
  | dequeue
  | acquire (i : Nat)
  | complete (i : Nat) (beh : ChildBeh)
  | wake (i : Nat)
deriving DecidableEq, Repr

/-- Completion effects of a failing child at coroutine `i`:
`_handle_task_failure` up to its first suspension — persist the failure,
then either enter the back-off sleep still holding the semaphore, or
finish terminally (emit `task_error`, mark `failed`) and release. -/
def completeFailure (s : PMState) (i : Nat) (co : Co) (error_msg : Str) :
    PMState :=
  let s1 := logFailed s co.item.task_id error_msg
  if 0 < co.item.retries_left then
    { s1 with cos := s1.cos.set i ⟨co.item, CoPoint.retrySleep error_msg⟩ }
  else
    { (failureTerminal s1 co.item.task_id co.item.args error_msg) with
        cos := s1.cos.eraseIdx i
        semAvail := s1.semAvail + 1 }

/-- One atomic step of the orchestrator; `none` when the label is not
enabled in the state. -/
def stepF (s : PMState) (l : PMLabel) : Option PMState :=
  match l with
  | PMLabel.submit script args retries =>
    some (enqueue_script s script args retries).1
  | PMLabel.dequeue =>
    match s.queue with
    | [] => none
    | item :: rest =>
      some { s with queue := rest, cos := s.cos ++ [⟨item, CoPoint.atGate⟩] }
  | PMLabel.acquire i =>
    match s.cos.get? i with
    | some co =>
      match co.point with
      | CoPoint.atGate =>
        if 0 < s.semAvail then
          some { (startExec s co.item) with
                   semAvail := s.semAvail - 1
                   cos := s.cos.set i ⟨co.item, CoPoint.executing⟩ }
        else none
      | _ => none
    | none => none
  | PMLabel.complete i beh =>
    match s.cos.get? i with
    | some co =>
      match co.point with
      | CoPoint.executing =>
        if TASK_TIMEOUT_SEC < beh.spawnTime then
          some (completeFailure s i co timeoutErrorMsg)
        else if beh.spawnFails then
          some (completeFailure s i co (spawnErrorMsg beh.spawnErr))
        else
          let stdout_str := decodeStream beh.stdoutBytes
          let stderr_str := decodeStream beh.stderrBytes
          if beh.exitCode = 0 then
            some { (execute_success s co.item.task_id co.item.args
                      stdout_str) with
                     cos := s.cos.eraseIdx i
                     semAvail := s.semAvail + 1 }
          else
            some (completeFailure s i co
              (exitErrorMsg beh.exitCode stderr_str))
      | _ => none
    | none => none
  | PMLabel.wake i =>
    match s.cos.get? i with
    | some co =>
      match co.point with
      | CoPoint.retrySleep _ =>
        some { (failureRetry s co.item.script_path co.item.args
                  co.item.retries_left) with
                 cos := s.cos.eraseIdx i
                 semAvail := s.semAvail + 1 }
      | _ => none
    | none => none

/-- Initial orchestrator state: everything empty, all
`MAX_CONCURRENT_TASKS` permits available. -/
def initState : PMState :=
  ⟨[], [], [], [], [], [], [], [], MAX_CONCURRENT_TASKS, [], 0⟩

/-- States reachable from the initial state. -/
inductive Reachable : PMState → Prop
  | init : Reachable initState
  | step {s s2 : PMState} {l : PMLabel} :
      Reachable s → stepF s l = some s2 → Reachable s2

/-- Run a list of labels from a state; `none` as soon as one is not
enabled. -/
def applyTrace (s : PMState) : List PMLabel → Option PMState
  | [] => some s
  | l :: ls =>
    match stepF s l with
    | some s2 => applyTrace s2 ls
    | none => none

/-- Coroutines holding a semaphore permit (past the gate). -/
def holdsGate (c : Co) : Bool :=
  match c.point with
  | CoPoint.atGate => false
  | _ => true

/-- Number of coroutines holding a semaphore permit. -/
def gateHolders (s : PMState) : Nat := s.cos.countP holdsGate

/-- Task ids mentioned by the queue or by an in-flight coroutine. -/
def mentionsId (s : PMState) (id : Nat) : Prop :=
  id ∈ s.queue.map TaskItem.task_id ∨
    id ∈ s.cos.map (fun c => c.item.task_id)

/-- A detached `running` id: its in-memory status is `running` but no
queued descriptor and no in-flight coroutine carries it, and it is older
than the fresh-id counter.  Such an id can never change status again. -/
def staleRunning (s : PMState) (id : Nat) : Prop :=
  natDictGet s.status id = some TStatus.running ∧ ¬ mentionsId s id ∧
    id < s.nextId

/-! ### Concrete demonstration objects -/

/-- A child that spawns instantly and exits `1` after one second with no
output: a script that always fails. -/
def behFail : ChildBeh := ⟨false, [], 0, 1, 1, [], []⟩

/-- A child that spawns instantly, runs for `TASK_TIMEOUT_SEC + 1`
seconds (a script sleeping past the configured timeout) and then exits
`0` with no output. -/
def behSleepy : ChildBeh := ⟨false, [], 0, TASK_TIMEOUT_SEC + 1, 0, [], []⟩

/-- The descriptor of a directly executed sleeping task. -/
def sleepyItem : TaskItem := ⟨0, "sleep.py".toList, [], TASK_MAX_RETRIES⟩

/-- A child that exits `0` printing two protocol lines, one of which
tries to spoof the `task_id` key (ASCII bytes). -/
def behResult : ChildBeh :=
  ⟨false, [], 0, 1, 0,
   "RESULT_TYPE:text\ntask_id:spoofed\nMESSAGE:hello".toList.map Char.toNat,
   []⟩

/-- A descriptor with three arguments, so that `args[2]` provides the
best-effort `user_id`. -/
def resultItem : TaskItem :=
  ⟨5, "w.py".toList, ["1".toList, "2".toList, "77".toList], 0⟩

/-- A burst of three submissions where the first fails with one retry
left: after its failing attempt releases the gate while its id is still
`running`, two more tasks acquire the gate. -/
def demoTrace : List PMLabel :=
  [PMLabel.submit "a.py".toList [] 1,
   PMLabel.submit "b.py".toList [] 0,
   PMLabel.submit "c.py".toList [] 0,
   PMLabel.dequeue, PMLabel.dequeue, PMLabel.dequeue,
   PMLabel.acquire 0,
   PMLabel.complete 0 behFail,
   PMLabel.wake 0,
   PMLabel.acquire 0,
   PMLabel.acquire 1]

/-- The reachable state at the end of `demoTrace`. -/
def demoState : PMState := (applyTrace initState demoTrace).getD initState

/-- A small state holding one detached id `0` at status `running` (its
attempt failed with retries left and was re-enqueued under a fresh id
that has already finished): used to witness the stale-`running`
properties. -/
def staleDemoState : PMState :=
  ⟨[], [(0, TStatus.running)], [(0, 3)],
   [(0, ⟨"a.py".toList, [], TStatus.running, none⟩)],
   [], [], [], [], MAX_CONCURRENT_TASKS, [], 1⟩

/-! ### Observations used to state the retry-chain properties -/

/-- Number of published events of one type. -/
def countEventsOf (s : PMState) (ty : Str) : Nat :=
  (s.events.filter (fun e => decide (e.1 = ty))).length

/-- Number of durable rows whose status is `failed`. -/
def countFailedRows (db : DbStore) : Nat :=
  (db.filter (fun p => decide (p.2.status = TStatus.failed))).length

/-- Every key of the durable store is below `n` (freshness bound). -/
def dbKeysLt (db : DbStore) (n : Nat) : Prop :=
  ∀ k ∈ db.map Prod.fst, k < n

/-! ## Parser lemmas -/

theorem dictLookup_dictInsert (d : List (Str × Str)) (k v k2 : Str) :
    dictLookup (dictInsert d k v) k2 =
      if k = k2 then some v else dictLookup d k2 := by
  induction d with
  | nil => simp [dictInsert, dictLookup]
  | cons p rest ih =>
    obtain ⟨k0, v0⟩ := p
    by_cases h0 : k0 = k
    · subst h0
      by_cases h2 : k0 = k2 <;> simp [dictInsert, dictLookup, h2]
    · by_cases h2 : k0 = k2
      · subst h2
        have hk : ¬ k = k0 := fun h => h0 h.symm
        simp [dictInsert, dictLookup, h0, hk]
      · simp [dictInsert, dictLookup, h0, h2, ih]

theorem dictLookup_foldl_dictInsert (pairs : List (Str × Str)) :
    ∀ (d : List (Str × Str)) (k : Str),
      dictLookup (pairs.foldl (fun d p => dictInsert d p.1 p.2) d) k =
        match specLookupPairs pairs k with
        | some v => some v
        | none => dictLookup d k := by
  induction pairs with
  | nil => intro d k; simp [specLookupPairs]
  | cons p rest ih =>
    intro d k
    have step :
        (p :: rest).foldl (fun d p => dictInsert d p.1 p.2) d =
          rest.foldl (fun d p => dictInsert d p.1 p.2) (dictInsert d p.1 p.2) := by
      simp
    rw [step, ih]
    cases hrest : specLookupPairs rest k with
    | some v => simp [specLookupPairs, hrest]
    | none =>
      rw [dictLookup_dictInsert]
      by_cases hk : p.1 = k <;> simp [specLookupPairs, hrest, hk]

theorem foldl_lines_eq_foldl_contributed (lines : List Str) :
    ∀ d : List (Str × Str),
      lines.foldl
        (fun parsed line =>
          if isCandidateLine line then
            match splitFirstColon line with
            | some (k, v) => dictInsert parsed (pyStrip k) (pyStrip v)
            | none => parsed
          else parsed) d =
      (lines.filterMap
        (fun line =>
          if isCandidateLine line then
            (splitFirstColon line).map (fun p => (pyStrip p.1, pyStrip p.2))
          else none)).foldl (fun d p => dictInsert d p.1 p.2) d := by
  induction lines with
  | nil => intro d; rfl
  | cons line rest ih =>
    intro d
    by_cases hc : isCandidateLine line = true
    · cases hs : splitFirstColon line with
      | none => simp [hc, hs, ih]
      | some p =>
        obtain ⟨k, v⟩ := p
        simp [hc, hs, ih]
    · simp [hc, ih]

theorem parse_eq_foldl_contributed (output : Str) :
    parse_script_output output =
      (specContributedPairs output).foldl (fun d p => dictInsert d p.1 p.2) [] := by
  rw [parse_script_output, specContributedPairs,
    foldl_lines_eq_foldl_contributed]

/-- C5: for every input string, `_parse_script_output` returns exactly the
string-to-string mapping obtained by scanning the lines in order, where a
line contributes iff it contains a colon and starts with neither `[` nor a
space, contributing lines are split at the first colon only with both
sides trimmed, and a later occurrence of a key overwrites the earlier
value; in particular the claim's concrete example yields exactly
`{KEY1: "VAL1", KEY2: "VAL2:with:colons"}`. -/
theorem C5_parse_script_output_matches_spec :
    (∀ output k,
      dictLookup (parse_script_output output) k = specParseLookup output k) ∧
    parse_script_output
        "[debug] skip\nKEY1:VAL1\n  indented:skip\nKEY2:VAL2:with:colons".toList =
      [("KEY1".toList, "VAL1".toList),
       ("KEY2".toList, "VAL2:with:colons".toList)] := by
  constructor
  · intro output k
    rw [parse_eq_foldl_contributed, specParseLookup,
      dictLookup_foldl_dictInsert]
    cases specLookupPairs (specContributedPairs output) k <;> simp [dictLookup]
  · decide

/-- C8: the tiered decoding (strict UTF-8, then cp1251, then UTF-8 with
lossy replacement) applied to the captured stdout and stderr byte streams
is total: it never raises and always produces a string for each stream. -/
theorem C8_tiered_decoding_total :
    ∀ stdoutBytes stderrBytes : List Nat,
      (∃ s, decodeStreamE stdoutBytes = Except.ok s) ∧
      (∃ s, decodeStreamE stderrBytes = Except.ok s) := by
  have total : ∀ bs : List Nat, ∃ s, decodeStreamE bs = Except.ok s := by
    intro bs
    rw [decodeStreamE]
    cases utf8Decode bs with
    | some s => exact ⟨s, rfl⟩
    | none =>
      cases cp1251Decode bs with
      | some s => exact ⟨s, rfl⟩
      | none => exact ⟨utf8DecodeReplace bs, rfl⟩
  exact fun o e => ⟨total o, total e⟩

/-! ## Event-bus lemmas -/

theorem dispatchHandlers_ok (l : List (Option Handler)) :
    ∀ acc : DispatchLog,
      dispatchHandlers l acc =
        Except.ok
          ⟨acc.invoked ++ (someHandlers l).map Handler.hid,
           acc.logged ++ ((someHandlers l).filter Handler.fails).map Handler.hid⟩ := by
  induction l with
  | nil => intro acc; simp [dispatchHandlers, someHandlers]
  | cons oh hs ih =>
    intro acc
    cases oh with
    | none => simp [dispatchHandlers, someHandlers, ih]
    | some h =>
      by_cases hf : h.fails = true
      · simp [dispatchHandlers, invokeHandler, hf, ih, someHandlers,
          List.filterMap_cons]
      · simp [dispatchHandlers, invokeHandler, hf, ih, someHandlers,
          List.filterMap_cons]

theorem regHandlers_regAppend (reg : HandlerReg) (ty : String)
    (h : Option Handler) (ty2 : String) :
    regHandlers (regAppend reg ty h) ty2 =
      if ty = ty2 then regHandlers reg ty2 ++ [h]
      else regHandlers reg ty2 := by
  induction reg with
  | nil => by_cases hty : ty = ty2 <;> simp [regAppend, regHandlers, hty]
  | cons p rest ih =>
    obtain ⟨t, l⟩ := p
    by_cases ht : t = ty
    · subst ht
      by_cases hty : t = ty2 <;> simp [regAppend, regHandlers, hty]
    · by_cases hty2 : t = ty2
      · subst hty2
        have : ¬ ty = t := fun hh => ht hh.symm
        simp [regAppend, regHandlers, ht, this]
      · simp [regAppend, regHandlers, ht, hty2, ih]

theorem subscribeAsync_fold_asyncH (hs : List Handler) (ty : String) :
    ∀ bus0 : Bus,
      regHandlers
        ((hs.foldl (fun b h => subscribe_async b ty (some h)) bus0).asyncH)
        ty = regHandlers bus0.asyncH ty ++ hs.map some := by
  induction hs with
  | nil => intro bus0; simp
  | cons h rest ih =>
    intro bus0
    rw [List.foldl_cons, ih]
    simp [subscribe_async, regHandlers_regAppend]

theorem subscribeAsync_fold_syncH (hs : List Handler) (ty : String) :
    ∀ bus0 : Bus,
      (hs.foldl (fun b h => subscribe_async b ty (some h)) bus0).syncH =
        bus0.syncH := by
  induction hs with
  | nil => intro bus0; rfl
  | cons h rest ih =>
    intro bus0
    rw [List.foldl_cons, ih]
    rfl

/-- C4: subscribing `N` asynchronous handlers to one event type (on a bus
with no previous asynchronous subscriber for that type) and emitting once
invokes all `N` exactly once, in subscription order, after first running
every synchronous handler of the type; an exception raised by handler `k`
is logged and swallowed while handlers `k+1..N` still run, and
`emit_event` never raises to its caller. -/
theorem C4_emit_event_dispatch (bus0 : Bus) (ty : String)
    (hs : List Handler) (hempty : regHandlers bus0.asyncH ty = []) :
    emit_event_bus (hs.foldl (fun b h => subscribe_async b ty (some h)) bus0)
        ty =
      Except.ok
        ⟨(someHandlers (regHandlers bus0.syncH ty)).map Handler.hid ++
           hs.map Handler.hid,
         ((someHandlers (regHandlers bus0.syncH ty)).filter
             Handler.fails).map Handler.hid ++
           (hs.filter Handler.fails).map Handler.hid⟩ := by
  rw [emit_event_bus, subscribeAsync_fold_syncH, subscribeAsync_fold_asyncH,
    hempty]
  simp only [dispatchHandlers_ok, List.nil_append]
  have hsome : someHandlers (hs.map some) = hs := by
    simp [someHandlers]
  simp [hsome]

/-- Witness for C4 at a concrete bus: three asynchronous handlers where
the second raises; all three are invoked in order, only the second is
logged, and `emit_event` returns normally. -/
theorem C4_emit_event_dispatch_witness :
    emit_event_bus
        ([⟨1, false⟩, ⟨2, true⟩, ⟨3, false⟩].foldl
          (fun b h => subscribe_async b "task_result" (some h))
          ⟨[], []⟩)
        "task_result" =
      Except.ok ⟨[1, 2, 3], [2]⟩ := by
  have h := C4_emit_event_dispatch ⟨[], []⟩ "task_result"
    [⟨1, false⟩, ⟨2, true⟩, ⟨3, false⟩] rfl
  rw [h]
  rfl

/-! ## Dictionary and store lemmas -/

theorem natDictGet_natDictSet {α : Type} (m : List (Nat × α)) (k : Nat)
    (v : α) (k2 : Nat) :
    natDictGet (natDictSet m k v) k2 =
      if k = k2 then some v else natDictGet m k2 := by
  induction m with
  | nil =>
    by_cases h : k = k2 <;> simp [natDictSet, natDictGet, h]
  | cons p rest ih =>
    obtain ⟨k0, v0⟩ := p
    by_cases h0 : k0 = k
    · subst h0
      by_cases h2 : k0 = k2 <;> simp [natDictSet, natDictGet, h2]
    · by_cases h2 : k0 = k2
      · subst h2
        have hk : ¬ k = k0 := fun h => h0 h.symm
        simp [natDictSet, natDictGet, h0, hk]
      · simp [natDictSet, natDictGet, h0, h2, ih]

theorem payloadLookup_payloadInsert (p : Payload) (k : Str) (v : PVal)
    (k2 : Str) :
    payloadLookup (payloadInsert p k v) k2 =
      if k = k2 then some v else payloadLookup p k2 := by
  induction p with
  | nil =>
    by_cases h : k = k2 <;> simp [payloadInsert, payloadLookup, h]
  | cons q rest ih =>
    obtain ⟨k0, v0⟩ := q
    by_cases h0 : k0 = k
    · subst h0
      by_cases h2 : k0 = k2 <;> simp [payloadInsert, payloadLookup, h2]
    · by_cases h2 : k0 = k2
      · subst h2
        have hk : ¬ k = k0 := fun h => h0 h.symm
        simp [payloadInsert, payloadLookup, h0, hk]
      · simp [payloadInsert, payloadLookup, h0, h2, ih]

theorem natDictGet_log_task_finish (db : DbStore) (k : Nat) (st : TStatus)
    (err : Option Str) (k2 : Nat) :
    natDictGet (log_task_finish db k st err) k2 =
      if k = k2 then
        (natDictGet db k2).map
          (fun r0 => { r0 with status := st, error_message := err })
      else natDictGet db k2 := by
  induction db with
  | nil =>
    by_cases h : k = k2 <;> simp [log_task_finish, natDictGet, h]
  | cons p rest ih =>
    obtain ⟨k0, r0⟩ := p
    by_cases h0 : k0 = k
    · subst h0
      by_cases h2 : k0 = k2 <;> simp [log_task_finish, natDictGet, h2]
    · by_cases h2 : k0 = k2
      · subst h2
        have hk : ¬ k = k0 := fun h => h0 h.symm
        simp [log_task_finish, natDictGet, h0, hk]
      · simp [log_task_finish, natDictGet, h0, h2, ih]

/-! ## Reachability helpers -/

theorem reachable_applyTrace :
    ∀ (ls : List PMLabel) (s s2 : PMState),
      applyTrace s ls = some s2 → Reachable s → Reachable s2 := by
  intro ls
  induction ls with
  | nil =>
    intro s s2 h hr
    simp [applyTrace] at h
    exact h ▸ hr
  | cons l rest ih =>
    intro s s2 h hr
    rw [applyTrace] at h
    cases hstep : stepF s l with
    | none => rw [hstep] at h; exact absurd h (by simp)
    | some s1 =>
      rw [hstep] at h
      exact ih s1 s2 h (Reachable.step hr hstep)

theorem runQueueSeq_empty (f : Nat) (s : PMState) (beh : ChildBeh)
    (h : s.queue = []) : runQueueSeq f s beh = s := by
  cases f with
  | zero => rfl
  | succ f => rw [runQueueSeq, h]

/-! ## Generic list helpers (indexed update, removal, projections) -/

theorem countP_set_of_get {α : Type} (p : α → Bool) :
    ∀ (l : List α) (i : Nat) (a b : α), l.get? i = some a →
      (l.set i b).countP p + (if p a then 1 else 0) =
        l.countP p + (if p b then 1 else 0) := by
  intro l
  induction l with
  | nil => intro i a b h; cases i <;> exact absurd h (by simp [List.get?])
  | cons x xs ih =>
    intro i a b h
    cases i with
    | zero =>
      have hx : some x = some a := h
      injection hx with hx
      subst hx
      show (b :: xs).countP p + _ = _
      simp [List.countP_cons]
      omega
    | succ i =>
      have h2 : xs.get? i = some a := h
      have := ih i a b h2
      show (x :: xs.set i b).countP p + _ = _
      simp only [List.countP_cons]
      omega

theorem countP_eraseIdx_of_get {α : Type} (p : α → Bool) :
    ∀ (l : List α) (i : Nat) (a : α), l.get? i = some a →
      (l.eraseIdx i).countP p + (if p a then 1 else 0) = l.countP p := by
  intro l
  induction l with
  | nil => intro i a h; cases i <;> exact absurd h (by simp [List.get?])
  | cons x xs ih =>
    intro i a h
    cases i with
    | zero =>
      have hx : some x = some a := h
      injection hx with hx
      subst hx
      show xs.countP p + (if p x = true then 1 else 0) = (x :: xs).countP p
      simp [List.countP_cons]
    | succ i =>
      have h2 : xs.get? i = some a := h
      have := ih i a h2
      show (x :: xs.eraseIdx i).countP p + _ = (x :: xs).countP p
      simp only [List.countP_cons]
      omega

theorem map_set_of_get {α β : Type} (f : α → β) :
    ∀ (l : List α) (i : Nat) (a b : α), l.get? i = some a → f b = f a →
      (l.set i b).map f = l.map f := by
  intro l
  induction l with
  | nil => intro i a b h _; cases i <;> exact absurd h (by simp [List.get?])
  | cons x xs ih =>
    intro i a b h hf
    cases i with
    | zero =>
      have hx : some x = some a := h
      injection hx with hx
      subst hx
      show f b :: xs.map f = f x :: xs.map f
      rw [hf]
    | succ i =>
      have h2 : xs.get? i = some a := h
      show f x :: (xs.set i b).map f = f x :: xs.map f
      rw [ih i a b h2 hf]

theorem mem_map_of_mem_map_eraseIdx {α β : Type} (f : α → β) :
    ∀ (l : List α) (i : Nat) (b : β), b ∈ (l.eraseIdx i).map f →
      b ∈ l.map f := by
  intro l
  induction l with
  | nil => intro i b h; exact absurd h (by cases i <;> simp [List.eraseIdx])
  | cons x xs ih =>
    intro i b h
    cases i with
    | zero =>
      have h2 : b ∈ xs.map f := h
      exact List.mem_cons_of_mem _ h2
    | succ i =>
      have h2 : b ∈ f x :: (xs.eraseIdx i).map f := h
      rcases List.mem_cons.mp h2 with h3 | h3
      · exact h3 ▸ List.mem_cons_self _ _
      · exact List.mem_cons_of_mem _ (ih i b h3)

theorem mem_map_of_get? {α β : Type} (f : α → β) :
    ∀ (l : List α) (i : Nat) (a : α), l.get? i = some a →
      f a ∈ l.map f := by
  intro l
  induction l with
  | nil => intro i a h; cases i <;> exact absurd h (by simp [List.get?])
  | cons x xs ih =>
    intro i a h
    cases i with
    | zero =>
      have hx : some x = some a := h
      injection hx with hx
      subst hx
      exact List.mem_cons_self _ _
    | succ i =>
      have h2 : xs.get? i = some a := h
      exact List.mem_cons_of_mem _ (ih i a h2)

/-! ## Executor-path theorems -/

/-- C1 (code bug): the sequential executor applies the
`TASK_TIMEOUT_SEC` deadline only to the spawn, not to the await of the
child's completion.  A child that spawns instantly, sleeps past the
configured timeout and exits `0` is never timed out: `_execute_task`
returns only after `TASK_TIMEOUT_SEC + 1` seconds, emits no event of any
kind (in particular no `task_error` mentioning the timeout), schedules no
retry, and records the task as `finished` — contradicting the claim (and
the repository's own `tests/unit/test_timeout_task.py`). -/
theorem C1_slow_child_never_times_out :
    (execute_task initState sleepyItem behSleepy).2 = TASK_TIMEOUT_SEC + 1 ∧
    (execute_task initState sleepyItem behSleepy).1.events = [] ∧
    (execute_task initState sleepyItem behSleepy).1.queue = [] ∧
    (execute_task initState sleepyItem behSleepy).1.sleeps = [] ∧
    natDictGet (execute_task initState sleepyItem behSleepy).1.status
        sleepyItem.task_id = some TStatus.finished := by
  refine ⟨by decide, by decide, by decide, by decide, by decide⟩

/-- C6: a task whose child exits `0` but whose captured stdout parses to
an empty mapping only logs a warning: no event of any type is emitted
(the event list is unchanged), and the task is not retried (queue, fresh
ids and back-off sleeps unchanged). -/
theorem C6_empty_parse_is_silent (s : PMState) (item : TaskItem)
    (beh : ChildBeh) (hspawn : beh.spawnFails = false)
    (hfast : beh.spawnTime ≤ TASK_TIMEOUT_SEC) (hexit : beh.exitCode = 0)
    (hempty : parse_script_output (decodeStream beh.stdoutBytes) = []) :
    (execute_task s item beh).1.events = s.events ∧
    (execute_task s item beh).1.queue = s.queue ∧
    (execute_task s item beh).1.nextId = s.nextId ∧
    (execute_task s item beh).1.sleeps = s.sleeps ∧
    (execute_task s item beh).1.warnings = s.warnings ++ [item.task_id] := by
  have hnt : ¬ TASK_TIMEOUT_SEC < beh.spawnTime := Nat.not_lt.mpr hfast
  simp [execute_task, hnt, hspawn, hexit, execute_success, hempty,
    startExec]

/-- Witness for C6 at the sleeping child (exit `0`, empty stdout): the
hypotheses hold and no event or retry results. -/
theorem C6_empty_parse_is_silent_witness :
    (behSleepy.spawnFails = false ∧
      behSleepy.spawnTime ≤ TASK_TIMEOUT_SEC ∧ behSleepy.exitCode = 0 ∧
      parse_script_output (decodeStream behSleepy.stdoutBytes) = []) ∧
    ((execute_task initState sleepyItem behSleepy).1.events =
        initState.events ∧
      (execute_task initState sleepyItem behSleepy).1.queue =
        initState.queue ∧
      (execute_task initState sleepyItem behSleepy).1.nextId =
        initState.nextId ∧
      (execute_task initState sleepyItem behSleepy).1.sleeps =
        initState.sleeps ∧
      (execute_task initState sleepyItem behSleepy).1.warnings =
        initState.warnings ++ [sleepyItem.task_id]) :=
  ⟨⟨rfl, by decide, rfl, by decide⟩,
   C6_empty_parse_is_silent initState sleepyItem behSleepy rfl (by decide)
     rfl (by decide)⟩

/-- C9: every task whose child exits `0` — in particular one whose parsed
mapping is empty (the ParseEmpty outcome) — has its in-memory status set
to `finished` and its durable row updated to `finished`, exactly as for a
task that produced a non-empty result. -/
theorem C9_exit_zero_marked_finished (s : PMState) (item : TaskItem)
    (beh : ChildBeh) (hspawn : beh.spawnFails = false)
    (hfast : beh.spawnTime ≤ TASK_TIMEOUT_SEC) (hexit : beh.exitCode = 0) :
    natDictGet (execute_task s item beh).1.status item.task_id =
      some TStatus.finished ∧
    natDictGet (execute_task s item beh).1.db item.task_id =
      (natDictGet s.db item.task_id).map
        (fun r0 =>
          { r0 with status := TStatus.finished, error_message := none }) := by
  have hnt : ¬ TASK_TIMEOUT_SEC < beh.spawnTime := Nat.not_lt.mpr hfast
  by_cases hempty :
      (parse_script_output (decodeStream beh.stdoutBytes)).isEmpty = true <;>
    simp [execute_task, hnt, hspawn, hexit, execute_success, hempty,
      startExec, natDictGet_natDictSet, natDictGet_log_task_finish]

/-- Witness for C9 at the sleeping child (exit `0` with empty output,
executed from a state whose durable store already holds the start row):
the in-memory status and the durable row both end `finished`. -/
theorem C9_exit_zero_marked_finished_witness :
    (behSleepy.spawnFails = false ∧
      behSleepy.spawnTime ≤ TASK_TIMEOUT_SEC ∧ behSleepy.exitCode = 0) ∧
    (natDictGet
        (execute_task (enqueue_script initState sleepyItem.script_path
          sleepyItem.args 0).1 ⟨0, sleepyItem.script_path, [], 0⟩
          behSleepy).1.status 0 = some TStatus.finished ∧
      natDictGet
        (execute_task (enqueue_script initState sleepyItem.script_path
          sleepyItem.args 0).1 ⟨0, sleepyItem.script_path, [], 0⟩
          behSleepy).1.db 0 =
      (natDictGet (enqueue_script initState sleepyItem.script_path
          sleepyItem.args 0).1.db 0).map
        (fun r0 =>
          { r0 with status := TStatus.finished, error_message := none })) :=
  ⟨⟨rfl, by decide, rfl⟩,
   C9_exit_zero_marked_finished _ _ behSleepy rfl (by decide) rfl⟩

/-- C10: a task whose child exits `0` with a non-empty parsed mapping
emits exactly one `task_result` event whose payload always carries the
core's own `task_id` and a `user_id` equal to `args[2]` when at least
three arguments exist and Python `None` otherwise — overwriting any
identically named keys the child printed. -/
theorem C10_task_result_payload_keys (s : PMState) (item : TaskItem)
    (beh : ChildBeh) (hspawn : beh.spawnFails = false)
    (hfast : beh.spawnTime ≤ TASK_TIMEOUT_SEC) (hexit : beh.exitCode = 0)
    (hne : parse_script_output (decodeStream beh.stdoutBytes) ≠ []) :
    ∃ payload,
      (execute_task s item beh).1.events =
        s.events ++ [(tyTaskResult, payload)] ∧
      payloadLookup payload kTaskId = some (PVal.tid item.task_id) ∧
      payloadLookup payload kUserId =
        some (optUser (item.args.get? 2)) := by
  have hnt : ¬ TASK_TIMEOUT_SEC < beh.spawnTime := Nat.not_lt.mpr hfast
  have hne2 :
      (parse_script_output (decodeStream beh.stdoutBytes)).isEmpty = false := by
    cases hp : parse_script_output (decodeStream beh.stdoutBytes) with
    | nil => exact absurd hp hne
    | cons a l => rfl
  refine
    ⟨payloadInsert
        (payloadInsert
          (toPayload (parse_script_output (decodeStream beh.stdoutBytes)))
          kTaskId (PVal.tid item.task_id))
        kUserId (optUser (item.args.get? 2)), ?_, ?_, ?_⟩
  · simp [execute_task, hnt, hspawn, hexit, execute_success, hne2,
      startExec]
  · simp [execute_task, hnt, hspawn, hexit, execute_success, hne2,
      startExec, payloadLookup_payloadInsert,
      show ¬ kUserId = kTaskId from by decide]
  · simp [execute_task, hnt, hspawn, hexit, execute_success, hne2,
      startExec, payloadLookup_payloadInsert]

/-- Witness for C10 at a child that prints protocol lines including a
spoofed `task_id`: the emitted payload carries the executor's id `5` and
`user_id` `"77"` taken from `args[2]`. -/
theorem C10_task_result_payload_keys_witness :
    (behResult.spawnFails = false ∧
      behResult.spawnTime ≤ TASK_TIMEOUT_SEC ∧ behResult.exitCode = 0 ∧
      parse_script_output (decodeStream behResult.stdoutBytes) ≠ []) ∧
    (∃ payload,
      (execute_task initState resultItem behResult).1.events =
        initState.events ++ [(tyTaskResult, payload)] ∧
      payloadLookup payload kTaskId = some (PVal.tid resultItem.task_id) ∧
      payloadLookup payload kUserId =
        some (optUser (resultItem.args.get? 2))) :=
  ⟨⟨rfl, by decide, rfl, by decide⟩,
   C10_task_result_payload_keys initState resultItem behResult rfl
     (by decide) rfl (by decide)⟩

/-! ## Concurrency-gate theorems -/

theorem reachable_demoState : Reachable demoState :=
  reachable_applyTrace demoTrace initState demoState (by decide)
    Reachable.init

/-- C2 counterexample: the claim "the number of task ids with in-memory
status `running` never exceeds `MAX_CONCURRENT_TASKS`" is false on the
code: after a burst of three submissions in which the first task's
attempt fails with a retry left (leaving its id at status `running`
forever) and the two others then acquire the gate, a reachable state has
three ids `running` while the configured maximum is two. -/
theorem C2_running_statuses_exceed_gate :
    Reachable demoState ∧ get_active_task_count demoState = 3 ∧
      MAX_CONCURRENT_TASKS = 2 :=
  ⟨reachable_demoState, by decide, by decide⟩

theorem gate_completeFailure (s : PMState) (i : Nat) (co : Co) (msg : Str)
    (hget : s.cos.get? i = some co) (hhold : holdsGate co = true) :
    gateHolders (completeFailure s i co msg) +
      (completeFailure s i co msg).semAvail =
      gateHolders s + s.semAvail := by
  by_cases hr0 : 0 < co.item.retries_left
  · have hset :=
      countP_set_of_get holdsGate s.cos i co
        ⟨co.item, CoPoint.retrySleep msg⟩ hget
    rw [hhold] at hset
    have hnew : holdsGate ⟨co.item, CoPoint.retrySleep msg⟩ = true := rfl
    rw [hnew] at hset
    simp at hset
    simp [completeFailure, hr0, logFailed, gateHolders]
    omega
  · have herase := countP_eraseIdx_of_get holdsGate s.cos i co hget
    rw [hhold] at herase
    simp at herase
    simp [completeFailure, hr0, logFailed, failureTerminal, gateHolders]
    omega

/-- C2 amended: what the gate does bound, in every reachable state, is
the number of in-flight executions holding a semaphore permit: permits
held plus permits available always equal `MAX_CONCURRENT_TASKS`, so at
most `MAX_CONCURRENT_TASKS` executions are ever past admission
simultaneously.  (The count of ids with status `running` is not so
bounded, because a failed attempt with retries left keeps its id at
`running` forever, as the counterexample shows.) -/
theorem C2_gate_bounds_executions (s : PMState) (h : Reachable s) :
    gateHolders s + s.semAvail = MAX_CONCURRENT_TASKS ∧
      gateHolders s ≤ MAX_CONCURRENT_TASKS := by
  have main : gateHolders s + s.semAvail = MAX_CONCURRENT_TASKS := by
    induction h with
    | init => decide
    | @step s1 s2 l hr hstep ih =>
      simp only [gateHolders] at ih
      cases l with
      | submit script args retries =>
        simp only [stepF, Option.some.injEq] at hstep
        subst hstep
        simp [gateHolders, enqueue_script]
        omega
      | dequeue =>
        cases hq : s1.queue with
        | nil => simp [stepF, hq] at hstep
        | cons item rest =>
          simp [stepF, hq] at hstep
          subst hstep
          simp [gateHolders, List.countP_append, List.countP_cons, holdsGate]
          omega
      | acquire i =>
        cases hget0 : s1.cos.get? i with
        | none =>
          have hget : s1.cos[i]? = none := by
            rw [← List.get?_eq_getElem?]; exact hget0
          simp [stepF, hget] at hstep
        | some co =>
          have hget : s1.cos[i]? = some co := by
            rw [← List.get?_eq_getElem?]; exact hget0
          cases hpt : co.point with
          | atGate =>
            by_cases hsem : 0 < s1.semAvail
            · simp [stepF, hget, hpt, hsem] at hstep
              subst hstep
              have hset :=
                countP_set_of_get holdsGate s1.cos i co
                  ⟨co.item, CoPoint.executing⟩ hget0
              have hold : holdsGate co = false := by
                simp [holdsGate, hpt]
              rw [hold] at hset
              have hnew : holdsGate ⟨co.item, CoPoint.executing⟩ = true :=
                rfl
              rw [hnew] at hset
              simp at hset
              simp [gateHolders, startExec]
              omega
            · simp [stepF, hget, hpt, hsem] at hstep
          | executing => simp [stepF, hget, hpt] at hstep
          | retrySleep msg => simp [stepF, hget, hpt] at hstep
      | complete i beh =>
        cases hget0 : s1.cos.get? i with
        | none =>
          have hget : s1.cos[i]? = none := by
            rw [← List.get?_eq_getElem?]; exact hget0
          simp [stepF, hget] at hstep
        | some co =>
          have hget : s1.cos[i]? = some co := by
            rw [← List.get?_eq_getElem?]; exact hget0
          cases hpt : co.point with
          | atGate => simp [stepF, hget, hpt] at hstep
          | retrySleep msg => simp [stepF, hget, hpt] at hstep
          | executing =>
            have hhold : holdsGate co = true := by simp [holdsGate, hpt]
            by_cases ht : TASK_TIMEOUT_SEC < beh.spawnTime
            · simp [stepF, hget, hpt, ht] at hstep
              subst hstep
              have hcf :=
                gate_completeFailure s1 i co timeoutErrorMsg hget0 hhold
              simp only [gateHolders] at hcf ⊢
              omega
            · by_cases hsf : beh.spawnFails = true
              · simp [stepF, hget, hpt, ht, hsf] at hstep
                subst hstep
                have hcf :=
                  gate_completeFailure s1 i co (spawnErrorMsg beh.spawnErr)
                    hget0 hhold
                simp only [gateHolders] at hcf ⊢
                omega
              · by_cases hec : beh.exitCode = 0
                · simp [stepF, hget, hpt, ht, hsf, hec] at hstep
                  subst hstep
                  have herase :=
                    countP_eraseIdx_of_get holdsGate s1.cos i co hget0
                  rw [hhold] at herase
                  simp at herase
                  simp [gateHolders]
                  omega
                · simp [stepF, hget, hpt, ht, hsf, hec] at hstep
                  subst hstep
                  have hcf :=
                    gate_completeFailure s1 i co
                      (exitErrorMsg beh.exitCode (decodeStream beh.stderrBytes))
                      hget0 hhold
                  simp only [gateHolders] at hcf ⊢
                  omega
      | wake i =>
        cases hget0 : s1.cos.get? i with
        | none =>
          have hget : s1.cos[i]? = none := by
            rw [← List.get?_eq_getElem?]; exact hget0
          simp [stepF, hget] at hstep
        | some co =>
          have hget : s1.cos[i]? = some co := by
            rw [← List.get?_eq_getElem?]; exact hget0
          cases hpt : co.point with
          | atGate => simp [stepF, hget, hpt] at hstep
          | executing => simp [stepF, hget, hpt] at hstep
          | retrySleep msg =>
            simp [stepF, hget, hpt] at hstep
            subst hstep
            have hhold : holdsGate co = true := by simp [holdsGate, hpt]
            have herase :=
              countP_eraseIdx_of_get holdsGate s1.cos i co hget0
            rw [hhold] at herase
            simp at herase
            simp [gateHolders, failureRetry, enqueue_script]
            omega
  exact ⟨main, by omega⟩

/-- Witness for the amended C2 at the concrete reachable burst state:
two executions hold the gate, zero permits remain, and the bound holds
even though three ids are at status `running` there. -/
theorem C2_gate_bounds_executions_witness :
    Reachable demoState ∧
      (gateHolders demoState + demoState.semAvail = MAX_CONCURRENT_TASKS ∧
        gateHolders demoState ≤ MAX_CONCURRENT_TASKS) :=
  ⟨reachable_demoState, C2_gate_bounds_executions demoState reachable_demoState⟩

/-! ## Durable-store lemmas for the retry chain -/

theorem natDictGet_none_of_keys_lt {α : Type} (n : Nat) :
    ∀ m : List (Nat × α), (∀ k ∈ m.map Prod.fst, k < n) →
      natDictGet m n = none := by
  intro m
  induction m with
  | nil => intro _; rfl
  | cons p rest ih =>
    intro h
    have hp : p.1 < n := h p.1 (by simp)
    have hne : ¬ p.1 = n := by omega
    obtain ⟨k0, v0⟩ := p
    simp only [natDictGet, hne, if_false]
    exact ih (fun k hk => h k (by simp at hk ⊢; exact Or.inr hk))

theorem fstmap_log_task_finish (db : DbStore) (k : Nat) (st : TStatus)
    (err : Option Str) :
    (log_task_finish db k st err).map Prod.fst = db.map Prod.fst := by
  induction db with
  | nil => rfl
  | cons p rest ih =>
    obtain ⟨k0, r0⟩ := p
    by_cases h0 : k0 = k <;> simp [log_task_finish, h0, ih]

theorem countFailedRows_log_task_start (db : DbStore) (id : Nat)
    (script : Str) (args : List Str) :
    countFailedRows (log_task_start db id script args) =
      countFailedRows db := by
  rw [log_task_start]
  cases natDictGet db id with
  | some r0 => rfl
  | none => simp [countFailedRows, List.filter_append]

theorem countFailedRows_log_task_finish_failed (id : Nat)
    (err : Option Str) :
    ∀ (db : DbStore) (r0 : DbRec), natDictGet db id = some r0 →
      r0.status ≠ TStatus.failed →
      countFailedRows (log_task_finish db id TStatus.failed err) =
        countFailedRows db + 1 := by
  intro db
  induction db with
  | nil => intro r0 h _; simp [natDictGet] at h
  | cons p rest ih =>
    intro r0 h hs
    obtain ⟨k0, q0⟩ := p
    by_cases h0 : k0 = id
    · subst h0
      simp [natDictGet] at h
      subst h
      simp [log_task_finish, countFailedRows, List.filter_cons, hs]
    · simp only [natDictGet, h0, if_false] at h
      have hrec := ih r0 h hs
      simp only [countFailedRows] at hrec
      simp only [log_task_finish, h0, if_false]
      by_cases hq : q0.status = TStatus.failed <;>
        simp [countFailedRows, List.filter_cons, hq] <;> omega

theorem natDictGet_append_fresh {α : Type} (id : Nat) (v : α) :
    ∀ m : List (Nat × α), natDictGet m id = none →
      natDictGet (m ++ [(id, v)]) id = some v := by
  intro m
  induction m with
  | nil => intro _; simp [natDictGet]
  | cons p rest ih =>
    intro h
    obtain ⟨k0, v0⟩ := p
    by_cases h0 : k0 = id
    · simp [natDictGet, h0] at h
    · simp only [natDictGet, h0, if_false] at h
      simp only [List.cons_append, natDictGet, h0, if_false]
      exact ih h

/-- One unfolding of the sequential drain when the queue is non-empty. -/
theorem runQueueSeq_cons (fuel : Nat) (s : PMState) (beh : ChildBeh)
    (item : TaskItem) (rest : List TaskItem) (h : s.queue = item :: rest) :
    runQueueSeq (fuel + 1) s beh =
      runQueueSeq fuel (execute_task { s with queue := rest } item beh).1
        beh := by
  simp only [runQueueSeq, h]

/-- Explicit state shape of one failing execution whose descriptor has no
retries left: status forced to `failed` after `running`, durable row
updated to `failed`, one `task_error` published, one attempt logged. -/
theorem execFail_terminal_state (s : PMState) (item : TaskItem)
    (beh : ChildBeh) (hspawn : beh.spawnFails = false)
    (hfast : beh.spawnTime ≤ TASK_TIMEOUT_SEC)
    (hcode : beh.exitCode ≠ 0) (hr : item.retries_left = 0) :
    (execute_task s item beh).1 =
      { s with
          status :=
            natDictSet (natDictSet s.status item.task_id TStatus.running)
              item.task_id TStatus.failed
          db :=
            log_task_finish s.db item.task_id TStatus.failed
              (some (exitErrorMsg beh.exitCode
                (decodeStream beh.stderrBytes)))
          events := s.events ++
            [(tyTaskError,
              taskErrorPayload item.task_id
                (exitErrorMsg beh.exitCode (decodeStream beh.stderrBytes))
                (item.args.get? 2))]
          execLog := s.execLog ++ [item] } := by
  simp [execute_task, Nat.not_lt.mpr hfast, hspawn, hcode, hr,
    handle_task_failure, failureTerminal, logFailed, startExec]

/-- Explicit state shape of one failing execution whose descriptor still
has `r + 1` retries: status of the failing id stays `running`, its
durable row is updated to `failed`, the back-off sleep is recorded, and a
fresh descriptor with budget `r` is enqueued under the next fresh id. -/
theorem execFail_retry_state (s : PMState) (item : TaskItem)
    (beh : ChildBeh) (hspawn : beh.spawnFails = false)
    (hfast : beh.spawnTime ≤ TASK_TIMEOUT_SEC)
    (hcode : beh.exitCode ≠ 0) (r : Nat)
    (hr : item.retries_left = r + 1) :
    (execute_task s item beh).1 =
      { s with
          queue := s.queue ++
            [⟨s.nextId, item.script_path, item.args, r⟩]
          status :=
            natDictSet (natDictSet s.status item.task_id TStatus.running)
              s.nextId TStatus.pending
          retries := natDictSet s.retries s.nextId r
          db :=
            log_task_start
              (log_task_finish s.db item.task_id TStatus.failed
                (some (exitErrorMsg beh.exitCode
                  (decodeStream beh.stderrBytes))))
              s.nextId item.script_path item.args
          execLog := s.execLog ++ [item]
          sleeps := s.sleeps ++ [TASK_RETRY_DELAY_SEC]
          nextId := s.nextId + 1 } := by
  simp [execute_task, Nat.not_lt.mpr hfast, hspawn, hcode, hr,
    handle_task_failure, failureRetry, logFailed, startExec,
    enqueue_script]

/-- Sequentially draining a queue holding one always-failing task of
retry budget `r` performs exactly `r + 1` attempts with budgets
`r, r-1, …, 0`, publishes exactly one `task_error` and no `task_result`,
writes `r + 1` failed rows, sleeps the back-off delay `r` times, and
leaves the queue empty. -/
theorem failChain (beh : ChildBeh) (hspawn : beh.spawnFails = false)
    (hfast : beh.spawnTime ≤ TASK_TIMEOUT_SEC)
    (hcode : beh.exitCode ≠ 0) :
    ∀ (r : Nat) (s : PMState) (item : TaskItem),
      item.retries_left = r → s.queue = [item] →
      item.task_id < s.nextId → dbKeysLt s.db s.nextId →
      (∃ r0, natDictGet s.db item.task_id = some r0 ∧
        r0.status ≠ TStatus.failed) →
      (runQueueSeq (r + 1) s beh).queue = [] ∧
      (runQueueSeq (r + 1) s beh).execLog.map TaskItem.retries_left =
        s.execLog.map TaskItem.retries_left ++
          (List.range (r + 1)).reverse ∧
      countEventsOf (runQueueSeq (r + 1) s beh) tyTaskError =
        countEventsOf s tyTaskError + 1 ∧
      (runQueueSeq (r + 1) s beh).events.filter
          (fun e => decide (e.1 = tyTaskResult)) =
        s.events.filter (fun e => decide (e.1 = tyTaskResult)) ∧
      countFailedRows (runQueueSeq (r + 1) s beh).db =
        countFailedRows s.db + (r + 1) ∧
      (runQueueSeq (r + 1) s beh).sleeps =
        s.sleeps ++ List.replicate r TASK_RETRY_DELAY_SEC := by
  intro r
  induction r with
  | zero =>
    intro s item hr hq hid hkeys hrec
    obtain ⟨r0, hr0, hr0s⟩ := hrec
    rw [runQueueSeq_cons 0 s beh item [] hq]
    rw [show runQueueSeq 0 (execute_task { s with queue := [] } item
        beh).1 beh = (execute_task { s with queue := [] } item beh).1
      from rfl]
    rw [execFail_terminal_state _ _ _ hspawn hfast hcode hr]
    refine ⟨rfl, ?_, ?_, ?_, ?_, ?_⟩
    · simp [hr, List.range_succ]
    · simp [countEventsOf, List.filter_append]
    · simp [List.filter_append,
        show ¬ tyTaskError = tyTaskResult from by decide]
    · simpa using
        countFailedRows_log_task_finish_failed item.task_id _ s.db r0
          hr0 hr0s
    · simp
  | succ r ih =>
    intro s item hr hq hid hkeys hrec
    obtain ⟨r0, hr0, hr0s⟩ := hrec
    rw [runQueueSeq_cons (r + 1) s beh item [] hq]
    have hstate :=
      execFail_retry_state { s with queue := [] } item beh hspawn hfast
        hcode r hr
    simp only [List.nil_append] at hstate
    have hkeysMid :
        dbKeysLt
          (log_task_finish s.db item.task_id TStatus.failed
            (some (exitErrorMsg beh.exitCode
              (decodeStream beh.stderrBytes)))) s.nextId := by
      intro k hk
      rw [fstmap_log_task_finish] at hk
      exact hkeys k hk
    have hfresh :
        natDictGet
          (log_task_finish s.db item.task_id TStatus.failed
            (some (exitErrorMsg beh.exitCode
              (decodeStream beh.stderrBytes)))) s.nextId = none :=
      natDictGet_none_of_keys_lt s.nextId _ hkeysMid
    have hmain :=
      ih (execute_task { s with queue := [] } item beh).1
        ⟨s.nextId, item.script_path, item.args, r⟩ rfl
        (by rw [hstate])
        (by rw [hstate]; exact Nat.lt_succ_self s.nextId)
        (by
          rw [hstate]
          intro k hk
          dsimp only at hk ⊢
          rw [log_task_start, hfresh] at hk
          simp at hk
          rcases hk with hk | hk
          · have := hkeysMid k (by simpa using hk)
            omega
          · omega)
        (by
          rw [hstate]
          refine ⟨⟨item.script_path, item.args, TStatus.running, none⟩,
            ?_, ?_⟩
          · dsimp only
            rw [log_task_start, hfresh]
            exact natDictGet_append_fresh s.nextId _ _ hfresh
          · intro hcontra
            exact TStatus.noConfusion hcontra)
    obtain ⟨c1, c2, c3, c4, c5, c6⟩ := hmain
    refine ⟨c1, ?_, ?_, ?_, ?_, ?_⟩
    · rw [c2, hstate]
      simp [hr, List.range_succ]
    · rw [c3, hstate]
      rfl
    · rw [c4, hstate]
    · rw [c5, hstate]
      dsimp only
      rw [countFailedRows_log_task_start]
      have :=
        countFailedRows_log_task_finish_failed item.task_id
          (some (exitErrorMsg beh.exitCode (decodeStream beh.stderrBytes)))
          s.db r0 hr0 hr0s
      omega
    · rw [c6, hstate]
      simp [List.replicate_succ]


/-- C3: a submission with retry budget `r` of a script that fails on
every attempt leads to exactly `r + 1` execution attempts (with budgets
`r, r-1, …, 0`, each re-enqueue after one fixed back-off delay), each
failure persisted as a `failed` durable row, exactly one terminal
`task_error` event, no `task_result`, and nothing left to execute. -/
theorem C3_retry_budget_attempts (beh : ChildBeh) (script : Str)
    (args : List Str) (r : Nat) (hspawn : beh.spawnFails = false)
    (hfast : beh.spawnTime ≤ TASK_TIMEOUT_SEC)
    (hcode : beh.exitCode ≠ 0) :
    (runQueueSeq (r + 1) (enqueue_script initState script args r).1
        beh).execLog.length = r + 1 ∧
    (runQueueSeq (r + 1) (enqueue_script initState script args r).1
        beh).execLog.map TaskItem.retries_left =
      (List.range (r + 1)).reverse ∧
    countEventsOf
        (runQueueSeq (r + 1) (enqueue_script initState script args r).1
          beh) tyTaskError = 1 ∧
    (runQueueSeq (r + 1) (enqueue_script initState script args r).1
        beh).events.filter (fun e => decide (e.1 = tyTaskResult)) = [] ∧
    countFailedRows
        (runQueueSeq (r + 1) (enqueue_script initState script args r).1
          beh).db = r + 1 ∧
    (runQueueSeq (r + 1) (enqueue_script initState script args r).1
        beh).sleeps = List.replicate r TASK_RETRY_DELAY_SEC ∧
    (runQueueSeq (r + 1) (enqueue_script initState script args r).1
        beh).queue = [] ∧
    ∀ f, runQueueSeq f
        (runQueueSeq (r + 1) (enqueue_script initState script args r).1
          beh) beh =
      runQueueSeq (r + 1) (enqueue_script initState script args r).1
        beh := by
  have h :=
    failChain beh hspawn hfast hcode r
      (enqueue_script initState script args r).1 ⟨0, script, args, r⟩
      rfl rfl (Nat.lt_succ_self 0)
      (by
        intro k hk
        simp [enqueue_script, initState, log_task_start, natDictGet]
          at hk ⊢
        omega)
      ⟨⟨script, args, TStatus.running, none⟩, rfl,
        fun hc => TStatus.noConfusion hc⟩
  obtain ⟨c1, c2, c3, c4, c5, c6⟩ := h
  refine ⟨?_, ?_, ?_, ?_, ?_, ?_, c1, fun f => runQueueSeq_empty f _ beh c1⟩
  · have hlen := congrArg List.length c2
    simpa [enqueue_script, initState] using hlen
  · exact c2.trans rfl
  · have h0 :
        countEventsOf (enqueue_script initState script args r).1
          tyTaskError = 0 := rfl
    omega
  · exact c4.trans rfl
  · have h0 :
        countFailedRows (enqueue_script initState script args r).1.db =
          0 := rfl
    omega
  · exact c6.trans rfl

/-- Witness for C3 at a child that always exits `1`: with `retries_left
= 2` exactly three attempts happen before the single `task_error`; with
`retries_left = 0` exactly one attempt happens. -/
theorem C3_retry_budget_attempts_witness :
    behFail.exitCode ≠ 0 ∧
    (runQueueSeq 3 (enqueue_script initState "f.py".toList [] 2).1
        behFail).execLog.length = 3 ∧
    countEventsOf
        (runQueueSeq 3 (enqueue_script initState "f.py".toList [] 2).1
          behFail) tyTaskError = 1 ∧
    (runQueueSeq 1 (enqueue_script initState "f.py".toList [] 0).1
        behFail).execLog.length = 1 :=
  ⟨by decide,
   (C3_retry_budget_attempts behFail "f.py".toList [] 2 rfl (by decide)
      (by decide)).1,
   (C3_retry_budget_attempts behFail "f.py".toList [] 2 rfl (by decide)
      (by decide)).2.2.1,
   (C3_retry_budget_attempts behFail "f.py".toList [] 0 rfl (by decide)
      (by decide)).1⟩

/-! ## Stale-`running` theorems (C7) -/

theorem not_mem_map_append {α β : Type} (f : α → β) (l : List α) (a : α)
    (b : β) (h1 : b ∉ l.map f) (h2 : b ≠ f a) : b ∉ (l ++ [a]).map f := by
  rw [List.map_append]
  intro h
  rcases List.mem_append.mp h with h | h
  · exact h1 h
  · simp at h
    exact h2 h

/-- No transition of the orchestrator ever touches a detached `running`
id again: its status stays `running`, it stays unmentioned, and it stays
below the fresh-id counter. -/
theorem stale_preserved (s s2 : PMState) (l : PMLabel) (id : Nat)
    (hstep : stepF s l = some s2) (hst : staleRunning s id) :
    staleRunning s2 id := by
  simp only [staleRunning, mentionsId] at hst ⊢
  obtain ⟨hrun, hmen, hlt⟩ := hst
  have hq : id ∉ s.queue.map TaskItem.task_id := fun h => hmen (Or.inl h)
  have hc : id ∉ s.cos.map (fun c => c.item.task_id) :=
    fun h => hmen (Or.inr h)
  cases l with
  | submit script args retries =>
    simp only [stepF, Option.some.injEq] at hstep
    subst hstep
    refine ⟨?_, ?_, ?_⟩
    · simp only [enqueue_script]
      rw [natDictGet_natDictSet, if_neg (by omega)]
      exact hrun
    · rintro (hm | hm)
      · simp only [enqueue_script] at hm
        exact not_mem_map_append _ s.queue _ id hq (by simp; omega) hm
      · exact hc (by simpa [enqueue_script] using hm)
    · simp only [enqueue_script]
      omega
  | dequeue =>
    cases hq0 : s.queue with
    | nil => simp [stepF, hq0] at hstep
    | cons item rest =>
      simp [stepF, hq0] at hstep
      subst hstep
      rw [hq0] at hq
      have hq1 : id ∉ rest.map TaskItem.task_id :=
        fun h => hq (List.mem_cons_of_mem _ h)
      have hq2 : ¬ id = item.task_id :=
        fun h => hq (h ▸ List.mem_cons_self _ _)
      refine ⟨hrun, ?_, hlt⟩
      rintro (hm | hm)
      · exact hq1 hm
      · exact not_mem_map_append _ s.cos ⟨item, CoPoint.atGate⟩ id hc
          hq2 hm
  | acquire i =>
    cases hget0 : s.cos.get? i with
    | none =>
      have hget : s.cos[i]? = none := by
        rw [← List.get?_eq_getElem?]; exact hget0
      simp [stepF, hget] at hstep
    | some co =>
      have hget : s.cos[i]? = some co := by
        rw [← List.get?_eq_getElem?]; exact hget0
      have hcid : co.item.task_id ≠ id := by
        intro h
        exact hc (h ▸ mem_map_of_get? (fun c => c.item.task_id) s.cos i
          co hget0)
      cases hpt : co.point with
      | atGate =>
        by_cases hsem : 0 < s.semAvail
        · simp [stepF, hget, hpt, hsem] at hstep
          subst hstep
          refine ⟨?_, ?_, ?_⟩
          · simp only [startExec]
            rw [natDictGet_natDictSet, if_neg hcid]
            exact hrun
          · rintro (hm | hm)
            · exact hq (by simpa [startExec] using hm)
            · rw [map_set_of_get (fun c : Co => c.item.task_id) s.cos i co
                ⟨co.item, CoPoint.executing⟩ hget0 rfl] at hm
              exact hc hm
          · simpa [startExec] using hlt
        · simp [stepF, hget, hpt, hsem] at hstep
      | executing => simp [stepF, hget, hpt] at hstep
      | retrySleep msg => simp [stepF, hget, hpt] at hstep
  | complete i beh =>
    cases hget0 : s.cos.get? i with
    | none =>
      have hget : s.cos[i]? = none := by
        rw [← List.get?_eq_getElem?]; exact hget0
      simp [stepF, hget] at hstep
    | some co =>
      have hget : s.cos[i]? = some co := by
        rw [← List.get?_eq_getElem?]; exact hget0
      have hcid : co.item.task_id ≠ id := by
        intro h
        exact hc (h ▸ mem_map_of_get? (fun c => c.item.task_id) s.cos i
          co hget0)
      have herase : id ∉ (s.cos.eraseIdx i).map (fun c => c.item.task_id) :=
        fun h =>
          hc (mem_map_of_mem_map_eraseIdx (fun c => c.item.task_id)
            s.cos i id h)
      have hfail :
          ∀ msg, staleRunning (completeFailure s i co msg) id := by
        intro msg
        simp only [staleRunning, mentionsId]
        by_cases hr0 : 0 < co.item.retries_left
        · refine ⟨?_, ?_, ?_⟩
          · simp only [completeFailure, hr0, if_true, logFailed]
            exact hrun
          · rintro (hm | hm)
            · exact hq (by simpa [completeFailure, hr0, logFailed] using hm)
            · simp only [completeFailure, hr0, if_true, logFailed] at hm
              rw [map_set_of_get (fun c : Co => c.item.task_id) s.cos i co
                ⟨co.item, CoPoint.retrySleep msg⟩ hget0 rfl] at hm
              exact hc hm
          · simp only [completeFailure, hr0, if_true, logFailed]
            exact hlt
        · refine ⟨?_, ?_, ?_⟩
          · simp only [completeFailure, hr0, if_false, failureTerminal,
              logFailed]
            rw [natDictGet_natDictSet, if_neg hcid]
            exact hrun
          · rintro (hm | hm)
            · exact hq (by
                simpa [completeFailure, hr0, failureTerminal, logFailed]
                  using hm)
            · exact herase (by
                simpa [completeFailure, hr0, failureTerminal, logFailed]
                  using hm)
          · simpa [completeFailure, hr0, failureTerminal, logFailed]
              using hlt
      cases hpt : co.point with
      | atGate => simp [stepF, hget, hpt] at hstep
      | retrySleep msg => simp [stepF, hget, hpt] at hstep
      | executing =>
        by_cases ht : TASK_TIMEOUT_SEC < beh.spawnTime
        · simp [stepF, hget, hpt, ht] at hstep
          subst hstep
          exact hfail _
        · by_cases hsf : beh.spawnFails = true
          · simp [stepF, hget, hpt, ht, hsf] at hstep
            subst hstep
            exact hfail _
          · by_cases hec : beh.exitCode = 0
            · simp [stepF, hget, hpt, ht, hsf, hec] at hstep
              subst hstep
              by_cases hemp :
                  (parse_script_output
                    (decodeStream beh.stdoutBytes)).isEmpty = true
              · refine ⟨?_, ?_, ?_⟩
                · simp only [execute_success, hemp, if_true]
                  rw [natDictGet_natDictSet, if_neg hcid]
                  exact hrun
                · rintro (hm | hm)
                  · exact hq (by
                      simpa [execute_success, hemp] using hm)
                  · exact herase (by
                      simpa [execute_success, hemp] using hm)
                · simpa [execute_success, hemp] using hlt
              · refine ⟨?_, ?_, ?_⟩
                · simp only [execute_success, hemp, if_false]
                  rw [natDictGet_natDictSet, if_neg hcid]
                  exact hrun
                · rintro (hm | hm)
                  · exact hq (by
                      simpa [execute_success, hemp] using hm)
                  · exact herase (by
                      simpa [execute_success, hemp] using hm)
                · simpa [execute_success, hemp] using hlt
            · simp [stepF, hget, hpt, ht, hsf, hec] at hstep
              subst hstep
              exact hfail _
  | wake i =>
    cases hget0 : s.cos.get? i with
    | none =>
      have hget : s.cos[i]? = none := by
        rw [← List.get?_eq_getElem?]; exact hget0
      simp [stepF, hget] at hstep
    | some co =>
      have hget : s.cos[i]? = some co := by
        rw [← List.get?_eq_getElem?]; exact hget0
      have herase : id ∉ (s.cos.eraseIdx i).map (fun c => c.item.task_id) :=
        fun h =>
          hc (mem_map_of_mem_map_eraseIdx (fun c => c.item.task_id)
            s.cos i id h)
      cases hpt : co.point with
      | atGate => simp [stepF, hget, hpt] at hstep
      | executing => simp [stepF, hget, hpt] at hstep
      | retrySleep msg =>
        simp [stepF, hget, hpt] at hstep
        subst hstep
        refine ⟨?_, ?_, ?_⟩
        · simp only [failureRetry, enqueue_script]
          rw [natDictGet_natDictSet, if_neg (by omega)]
          exact hrun
        · rintro (hm | hm)
          · simp only [failureRetry, enqueue_script] at hm
            exact not_mem_map_append _ s.queue _ id hq (by simp; omega) hm
          · exact herase (by simpa [failureRetry, enqueue_script] using hm)
        · simp only [failureRetry, enqueue_script]
          omega


theorem natDictGet_append_ne {α : Type} (n : Nat) (v : α) (k : Nat)
    (hne : ¬ n = k) : ∀ m : List (Nat × α),
      natDictGet (m ++ [(n, v)]) k = natDictGet m k := by
  intro m
  induction m with
  | nil => simp [natDictGet, hne]
  | cons p rest ih =>
    obtain ⟨k0, v0⟩ := p
    by_cases h0 : k0 = k
    · simp only [List.cons_append, natDictGet, h0, if_true]
    · simp only [List.cons_append, natDictGet, h0, if_false]
      exact ih

/-- C7: an attempt that fails while retries remain never transitions its
own task id out of the in-memory status it had (in particular it stays
`running`): only the fresh retry descriptor minted by the re-enqueue gets
status `pending`, only the durable row of the old id is updated to
`failed` (diverging permanently from the in-memory `running`), the retry
enters the queue under the fresh id, no event is emitted — and no later
transition of the orchestrator ever touches a detached `running` id
again, so it stays counted by `get_active_task_count` indefinitely. -/
theorem C7_failed_retry_keeps_old_id_running :
    (∀ (s : PMState) (id : Nat) (script : Str) (args : List Str)
        (msg : Str) (r : Nat), 0 < r → id < s.nextId →
      natDictGet (handle_task_failure s id script args msg r).status id =
        natDictGet s.status id ∧
      natDictGet (handle_task_failure s id script args msg r).status
          s.nextId = some TStatus.pending ∧
      natDictGet (handle_task_failure s id script args msg r).db id =
        (natDictGet s.db id).map
          (fun r0 =>
            { r0 with status := TStatus.failed,
                      error_message := some msg }) ∧
      (handle_task_failure s id script args msg r).queue =
        s.queue ++ [⟨s.nextId, script, args, r - 1⟩] ∧
      (handle_task_failure s id script args msg r).events = s.events) ∧
    (∀ (s s2 : PMState) (l : PMLabel) (id : Nat),
      stepF s l = some s2 → staleRunning s id → staleRunning s2 id) := by
  refine ⟨?_, stale_preserved⟩
  intro s id script args msg r hr hid
  have hne : ¬ s.nextId = id := by omega
  refine ⟨?_, ?_, ?_, ?_, ?_⟩
  · simp only [handle_task_failure]
    rw [if_pos hr]
    simp only [failureRetry, logFailed, enqueue_script]
    rw [natDictGet_natDictSet, if_neg hne]
  · simp only [handle_task_failure]
    rw [if_pos hr]
    simp only [failureRetry, logFailed, enqueue_script]
    rw [natDictGet_natDictSet, if_pos rfl]
  · simp only [handle_task_failure]
    rw [if_pos hr]
    simp only [failureRetry, logFailed, enqueue_script]
    rw [log_task_start]
    cases h2 :
        natDictGet (log_task_finish s.db id TStatus.failed (some msg))
          s.nextId with
    | some w =>
      rw [natDictGet_log_task_finish, if_pos rfl]
    | none =>
      rw [natDictGet_append_ne s.nextId _ id hne,
        natDictGet_log_task_finish, if_pos rfl]
  · simp only [handle_task_failure]
    rw [if_pos hr]
    simp only [failureRetry, logFailed, enqueue_script]
  · simp only [handle_task_failure]
    rw [if_pos hr]
    simp only [failureRetry, logFailed, enqueue_script]

/-- Witness for C7 at a concrete detached state: the failing id `0` keeps
its `running` status while the fresh id `1` becomes `pending`, and a
further submission step preserves the stale `running` id. -/
theorem C7_failed_retry_keeps_old_id_running_witness :
    ((0 : Nat) < 1 ∧ 0 < staleDemoState.nextId ∧
      natDictGet (handle_task_failure staleDemoState 0 "a.py".toList []
          "e".toList 1).status 0 = natDictGet staleDemoState.status 0 ∧
      natDictGet (handle_task_failure staleDemoState 0 "a.py".toList []
          "e".toList 1).status staleDemoState.nextId =
        some TStatus.pending) ∧
    (stepF staleDemoState (PMLabel.submit "b.py".toList [] 0) =
        some (enqueue_script staleDemoState "b.py".toList [] 0).1 ∧
      staleRunning staleDemoState 0 ∧
      staleRunning (enqueue_script staleDemoState "b.py".toList [] 0).1
        0) := by
  have hstale : staleRunning staleDemoState 0 := by
    simp only [staleRunning, mentionsId]
    exact ⟨by decide, by decide, by decide⟩
  refine ⟨⟨by decide, by decide, ?_, ?_⟩, rfl, hstale, ?_⟩
  · exact
      (C7_failed_retry_keeps_old_id_running.1 staleDemoState 0
        "a.py".toList [] "e".toList 1 (by decide) (by decide)).1
  · exact
      (C7_failed_retry_keeps_old_id_running.1 staleDemoState 0
        "a.py".toList [] "e".toList 1 (by decide) (by decide)).2.1
  · exact
      C7_failed_retry_keeps_old_id_running.2 staleDemoState _
        (PMLabel.submit "b.py".toList [] 0) 0 rfl hstale

end BotCore
